import Mathlib

/-
Verification of the claude-audio-hooks CLI against its specification.

The development shallowly embeds the TypeScript sources:
JSON documents become an inductive `Json` type; the files the tool reads
and writes become a map from paths to file contents; each operation of the
source (config store, settings installer, hook handlers, validators) becomes
an executable Lean function translated from the corresponding TypeScript
function.  JSON.parse / JSON.stringify of the JavaScript runtime are
modelled by storing parsed documents in the file map; the one file the
program writes that is not valid JSON (the emptied configuration file)
is represented by a dedicated constructor.
-/

namespace ClaudeAudioHooks

/-- A JSON document, as produced by JSON.parse.  Objects keep their fields
in insertion order, as JavaScript objects do. -/
inductive Json where
  | null : Json
  | bool (b : Bool) : Json
  | num (n : Int) : Json
  | str (s : String) : Json
  | arr (elems : List Json) : Json
  | obj (fields : List (String × Json)) : Json
deriving Repr, Inhabited

/-- First binding for a key in an object field list (JavaScript property read). -/
def lookupField : List (String × Json) → String → Option Json
  | [], _ => none
  | (k', v) :: rest, k => if k' = k then some v else lookupField rest k

/-- JavaScript property assignment on an object: an existing key keeps its
position and gets the new value, a new key is appended at the end. -/
def setField : List (String × Json) → String → Json → List (String × Json)
  | [], k, v => [(k, v)]
  | (k', v') :: rest, k, v =>
      if k' = k then (k, v) :: rest else (k', v') :: setField rest k v

/-- JavaScript `delete obj[k]`: drop the binding for a key. -/
def deleteField : List (String × Json) → String → List (String × Json)
  | [], _ => []
  | (k', v) :: rest, k =>
      if k' = k then deleteField rest k else (k', v) :: deleteField rest k

/-- Property read on an arbitrary value; reads on non-objects yield undefined. -/
def getField : Json → String → Option Json
  | Json.obj fields, k => lookupField fields k
  | _, _ => none

/-- JavaScript truthiness of a JSON value. -/
def jsTruthy : Json → Bool
  | Json.null => false
  | Json.bool b => b
  | Json.num n => n != 0
  | Json.str s => s != ""
  | Json.arr _ => true
  | Json.obj _ => true

/-- Fields contributed by object spread `{...v}`: objects contribute their
fields, arrays and strings contribute index-keyed entries, primitives none. -/
def spreadFields : Json → List (String × Json)
  | Json.obj fields => fields
  | Json.arr xs => xs.enum.map (fun p => (toString p.1, p.2))
  | Json.str s => s.data.enum.map (fun p => (toString p.1, Json.str p.2.toString))
  | _ => []

/-- Contents of one file of the store: a parsed JSON document, or the empty
string (which JSON.parse rejects) that `removeConfig` writes. -/
inductive FileContent where
  | json (j : Json) : FileContent
  | empty : FileContent
deriving Repr

/-- The files the tool touches, keyed by path.  Directory creation
(mkdirSync) has no observable effect on this map and is not modelled. -/
def FS : Type := String → Option FileContent

def FS.write (fs : FS) (path : String) (c : FileContent) : FS :=
  fun p => if p = path then some c else fs p

def emptyFS : FS := fun _ => none

/-! ## utils.ts : log directory, event logger, sound resolution -/

/-- utils.ts getLogsDir: join(HOME, ".claude", "logs"). -/
def getLogsDir (home : String) : String := home ++ "/.claude/logs"

/-- Path of the per-event-type log file written by logEvent. -/
def logFilePath (home eventType : String) : String :=
  getLogsDir home ++ "/" ++ eventType ++ ".json"

/-- The record logEvent appends: the object literal
`{timestamp: ..., ...data}`.  The spread comes second, so a `timestamp`
field of the payload overwrites the generated value (the key keeps its
first position). -/
def mkLogRecord (ts : String) (data : Json) : Json :=
  Json.obj ((spreadFields data).foldl (fun acc kv => setField acc kv.1 kv.2)
    [("timestamp", Json.str ts)])

/-- utils.ts logEvent.  A missing file and unparseable contents both start
from the empty array (the parse failure is caught).  `logs.push` on a
parsed non-array value throws a TypeError before anything is written;
that exception propagates to the caller and is modelled as `none`. -/
def logEvent (home eventType : String) (data : Json) (ts : String) (fs : FS) :
    Option FS :=
  let logFile := logFilePath home eventType
  let logs : Json :=
    match fs logFile with
    | none => Json.arr []
    | some (FileContent.json j) => j
    | some FileContent.empty => Json.arr []
  match logs with
  | Json.arr xs =>
      some (fs.write logFile (FileContent.json (Json.arr (xs ++ [mkLogRecord ts data]))))
  | _ => none

/-- Iterated logEvent: one call per (payload, timestamp) pair, in order;
an exception out of one call aborts the sequence. -/
def logEventN (home eventType : String) : List (Json × String) → FS → Option FS
  | [], fs => some fs
  | dt :: rest, fs =>
      (logEvent home eventType dt.1 dt.2 fs).bind (logEventN home eventType rest)

/-- Path join(dirname(process.argv[1]), "../sounds", soundFile) of utils.ts,
with the script directory kept abstract; node path normalization is not
applied, paths are compared as the strings the code builds. -/
def packageSoundPath (argvDir soundFile : String) : String :=
  argvDir ++ "/../sounds/" ++ soundFile

/-- Path join(HOME, ".claude", soundFile) of utils.ts. -/
def userSoundPath (home soundFile : String) : String :=
  home ++ "/.claude/" ++ soundFile

/-- src/utils.ts getSoundPath: checks the bundled package location first and
falls back to the user location, existence probed through `ex`. -/
def getSoundPath (ex : String → Bool) (argvDir home soundFile : String) : String :=
  let packagePath := packageSoundPath argvDir soundFile
  if ex packagePath then packagePath
  else userSoundPath home soundFile

/-- The getSoundPath revision of src/unnamed/part_003: prefers the user
.claude directory and falls back to the package location. -/
def getSoundPathUserFirst (ex : String → Bool) (argvDir home soundFile : String) : String :=
  let userPath := userSoundPath home soundFile
  if ex userPath then userPath
  else packageSoundPath argvDir soundFile

/-! ## config-manager.ts : the AudioHooksConfig store -/

/-- HookMode of config-manager.ts. -/
inductive HookMode where
  | standard : HookMode
  | tts : HookMode
deriving Repr, DecidableEq

/-- SoundSelection of config-manager.ts. -/
structure SoundSelection where
  notification : String
  completion : String
deriving Repr, DecidableEq

/-- AudioHooksConfig of config-manager.ts; the optional elevenLabsApiKey
becomes an Option (the undefined value of TypeScript is `none`). -/
structure AudioHooksConfig where
  mode : HookMode
  elevenLabsApiKey : Option String
  soundSelection : SoundSelection
  installedAt : String
  version : String
deriving Repr, DecidableEq

/-- CONFIG_PATH of config-manager.ts: join(HOME, ".claude", "audio-hooks-config.json"). -/
def configPath (home : String) : String := home ++ "/.claude/audio-hooks-config.json"

def modeToStr : HookMode → String
  | HookMode.standard => "standard"
  | HookMode.tts => "tts"

def strToMode (s : String) : Option HookMode :=
  if s = "standard" then some HookMode.standard
  else if s = "tts" then some HookMode.tts
  else none

/-- The JSON document JSON.stringify produces for an AudioHooksConfig value:
fields in declaration order, the elevenLabsApiKey key dropped when the
value is undefined. -/
def encodeConfig (c : AudioHooksConfig) : Json :=
  Json.obj
    ([("mode", Json.str (modeToStr c.mode))]
      ++ (match c.elevenLabsApiKey with
          | some k => [("elevenLabsApiKey", Json.str k)]
          | none => [])
      ++ [("soundSelection", Json.obj
            [("notification", Json.str c.soundSelection.notification),
             ("completion", Json.str c.soundSelection.completion)]),
          ("installedAt", Json.str c.installedAt),
          ("version", Json.str c.version)])

/-- Reading a parsed document back as an AudioHooksConfig.  The TypeScript
loader performs an unchecked cast; this decoder reads exactly the fields
the cast promises, and fails where the cast would produce a document of
the wrong shape. -/
def decodeConfig (j : Json) : Option AudioHooksConfig :=
  match getField j "mode", getField j "soundSelection",
        getField j "installedAt", getField j "version" with
  | some (Json.str ms), some ss, some (Json.str ia), some (Json.str ver) =>
    (match strToMode ms, getField ss "notification", getField ss "completion" with
      | some m, some (Json.str n), some (Json.str comp) =>
        let key : Option String :=
          match getField j "elevenLabsApiKey" with
          | some (Json.str k) => some k
          | _ => none
        some { mode := m, elevenLabsApiKey := key,
               soundSelection := { notification := n, completion := comp },
               installedAt := ia, version := ver }
      | _, _, _ => none)
  | _, _, _, _ => none

/-- ConfigManager.saveConfig: overwrite the config file with the
pretty-printed document (serialization modelled by storing the document). -/
def saveConfig (home : String) (c : AudioHooksConfig) (fs : FS) : FS :=
  FS.write fs (configPath home) (FileContent.json (encodeConfig c))

/-- ConfigManager.loadConfig: null when the file is missing, null when its
contents do not parse (the catch branch), the parsed document otherwise. -/
def loadConfig (home : String) (fs : FS) : Option AudioHooksConfig :=
  match fs (configPath home) with
  | some (FileContent.json j) => decodeConfig j
  | _ => none

/-- ConfigManager.removeConfig: when the config file exists, overwrite it
with the empty string (which a later JSON.parse rejects); otherwise leave
the store alone. -/
def removeConfig (home : String) (fs : FS) : FS :=
  if (fs (configPath home)).isSome then FS.write fs (configPath home) FileContent.empty
  else fs

/-- The whitespace set trimmed by String.prototype.trim: the WhiteSpace
production (TAB, VT, FF, SP, NBSP, ZWNBSP and the Space_Separator
category) together with the LineTerminator production (LF, CR, LS, PS). -/
def jsWhitespace (c : Char) : Bool :=
  c == ' ' || c == '\t' || c == '\n' || c == '\r' ||
  c == Char.ofNat 11 || c == Char.ofNat 12 || c == Char.ofNat 160 ||
  c == Char.ofNat 0x1680 ||
  (decide (0x2000 ≤ c.toNat) && decide (c.toNat ≤ 0x200A)) ||
  c == Char.ofNat 0x2028 || c == Char.ofNat 0x2029 ||
  c == Char.ofNat 0x202F || c == Char.ofNat 0x205F ||
  c == Char.ofNat 0x3000 || c == Char.ofNat 0xFEFF

/-- String.prototype.trim: drop whitespace from both ends. -/
def jsTrim (s : String) : String :=
  String.mk (((s.data.dropWhile jsWhitespace).reverse.dropWhile jsWhitespace).reverse)

/-- The length JavaScript reports for a string: UTF-16 code units, two
per astral code point.  A Lean String is a sequence of Unicode scalar
values, so this is the JS length of every well-formed string (lone
surrogates cannot be represented). -/
def utf16Length (s : String) : Nat :=
  s.data.foldl (fun n c => n + (if c.toNat < 0x10000 then 1 else 2)) 0

/-- ConfigManager.validateElevenLabsApiKey.  The typeof guard of the
source is vacuous under typing; apiKey.length is the UTF-16 length. -/
def validateElevenLabsApiKey (s : String) : Bool :=
  decide (utf16Length s > 10) && (jsTrim s != "")

/-! ## installer.ts : the switch-mode flow -/

/-- JavaScript truthiness of the optional stored API key
(`!apiKey` is true for undefined and for the empty string). -/
def jsTruthyOptStr : Option String → Bool
  | none => false
  | some s => s != ""

/-- Installer.switchMode, identical in both source revisions.  The two
interactive inputs become parameters: `confirm` is the yes/no answer to
the switch prompt, `promptedKey` the key promptForApiKey would return.
The result pairs the returned configuration (none on cancellation or when
nothing is installed) with whether the API-key prompt ran. -/
def switchModeFlow (currentConfig : Option AudioHooksConfig) (confirm : Bool)
    (promptedKey : String) : Option AudioHooksConfig × Bool :=
  match currentConfig with
  | none => (none, false)
  | some cfg =>
    let newMode := if cfg.mode = HookMode.standard then HookMode.tts else HookMode.standard
    if confirm then
      let apiKey := cfg.elevenLabsApiKey
      let needsPrompt := decide (newMode = HookMode.tts) && !(jsTruthyOptStr apiKey)
      let apiKey' := if needsPrompt then some promptedKey else apiKey
      (some { cfg with mode := newMode, elevenLabsApiKey := apiKey' }, needsPrompt)
    else (none, false)

/-! ## status label and the stringification used by template literals -/

mutual

/-- JavaScript String() of a JSON value, as a template literal applies it. -/
def jsToString : Json → String
  | Json.null => "null"
  | Json.bool b => if b then "true" else "false"
  | Json.num n => toString n
  | Json.str s => s
  | Json.arr xs => jsArrayToString xs
  | Json.obj _ => "[object Object]"

/-- Array.prototype.toString: elements joined by commas, null rendered empty. -/
def jsArrayToString : List Json → String
  | [] => ""
  | x :: rest =>
      (match x with
        | Json.null => ""
        | other => jsToString other)
      ++ (if rest.isEmpty then "" else ",") ++ jsArrayToString rest

end

/-- A property read that also applies the truthiness test of the
short-circuiting disjunctions in the handlers. -/
def truthyField (data : Json) (k : String) : Option Json :=
  match getField data k with
  | some v => if jsTruthy v then some v else none
  | none => none

/-- The task pick of the working handler:
`data.task || data.tool || data.action || "Working"`. -/
def taskOf (data : Json) : Json :=
  (((truthyField data "task").or (truthyField data "tool")).or
    (truthyField data "action")).getD (Json.str "Working")

/-! ## hook-state file (utils.ts setHookTimestamp) -/

def hookStateFile (home : String) : String := getLogsDir home ++ "/hook-state.json"

/-- utils.ts setHookTimestamp: read the state object (empty on a missing
or unparseable file), set state[hookType] to Date.now(), write it back.
A parsed JSON array accepts the assignment as a named property, which
JSON.stringify then drops, so the array is written back unchanged; on a
parsed primitive the assignment throws a strict-mode TypeError, modelled
as `none`, which propagates to the caller. -/
def setHookTimestamp (home hookType : String) (now : Int) (fs : FS) : Option FS :=
  let stateFile := hookStateFile home
  match fs stateFile with
  | none =>
      some (fs.write stateFile
        (FileContent.json (Json.obj (setField [] hookType (Json.num now)))))
  | some FileContent.empty =>
      some (fs.write stateFile
        (FileContent.json (Json.obj (setField [] hookType (Json.num now)))))
  | some (FileContent.json (Json.obj fields)) =>
      some (fs.write stateFile
        (FileContent.json (Json.obj (setField fields hookType (Json.num now)))))
  | some (FileContent.json (Json.arr xs)) =>
      some (fs.write stateFile (FileContent.json (Json.arr xs)))
  | some (FileContent.json _) => none

/-! ## the three hook handler entry points

The stdin end-callback of each handler is a function of the JSON.parse outcome
of the accumulated standard input (`none` when parsing throws), the
timestamp the logger would generate, and the file store.  Sound playback,
toast notifications and terminal writes are external effects; the
observable result of a handler here is its exit code, the updated file
store, and the status update it dispatches. -/

/-- The on-tool-start handler (src/unnamed/part_000).  On a parse failure
it prints an error and exits 2 without touching any file; otherwise it
logs the working event and dispatches the working status labelled with
the picked task.  An exception out of logEvent lands in the same catch. -/
def workingOnEnd (home : String) (inp : Option Json) (ts : String) (fs : FS) :
    Nat × FS × Option (String × String) :=
  match inp with
  | none => (2, fs, none)
  | some data =>
    match logEvent home "working" data ts fs with
    | none => (2, fs, none)
    | some fs' => (0, fs', some ("working", jsToString (taskOf data) ++ "..."))

/-- The on-notification handler (notification.ts, appended revision in
src/src/cli.ts).  On a parse failure it exits 2 without touching any
file; on success it logs the event and every branch of the sound and
toast dispatch exits 0, so the success paths are collapsed to exit 0
with the updated store. -/
def notificationOnEnd (home : String) (inp : Option Json) (ts : String) (fs : FS) :
    Nat × FS :=
  match inp with
  | none => (2, fs)
  | some data =>
    match logEvent home "notifications" data ts fs with
    | none => (2, fs)
    | some fs' => (0, fs')

/-- The on-stop handler (src/src/stop.ts).  Its catch-all prints an error
and exits 1 — including on a parse failure — unlike the sibling handlers.
On success it logs the stop event, records the debounce timestamp, and
every sound branch reaches afterNotification and exits 0; the transcript
processing behind the chat flag writes a consolidated chat log and is not
needed by the properties below. -/
def stopOnEnd (home : String) (inp : Option Json) (ts : String) (now : Int) (fs : FS) :
    Nat × FS :=
  match inp with
  | none => (1, fs)
  | some data =>
    match logEvent home "stop" data ts fs with
    | none => (1, fs)
    | some fs' =>
      match setHookTimestamp home "stop" now fs' with
      | none => (1, fs')
      | some fs'' => (0, fs'')

/-! ## cli.ts : patching the host settings document

loadSettings / saveSettings read, mutate in memory and fully rewrite the
settings document; the functions below are the document transformations
between those two steps.  A top-level settings document is an object,
modelled by its field list. -/

/-- The three hook types the tool registers. -/
def hookTypes : List String := ["PreToolUse", "Notification", "Stop"]

def nodeCmd (scriptPath : String) : String := "node \"" ++ scriptPath ++ "\""

/-- cli.ts getHookCommands: the command string per hook type, by mode. -/
def getHookCommands (distPath : String) (mode : HookMode) : List (String × String) :=
  match mode with
  | HookMode.tts =>
      [("PreToolUse", nodeCmd (distPath ++ "/working.js")),
       ("Notification", nodeCmd (distPath ++ "/tts-summary.js") ++ " notification"),
       ("Stop", nodeCmd (distPath ++ "/tts-summary.js") ++ " stop")]
  | HookMode.standard =>
      [("PreToolUse", nodeCmd (distPath ++ "/working.js")),
       ("Notification", nodeCmd (distPath ++ "/notification.js") ++ " --notify"),
       ("Stop", nodeCmd (distPath ++ "/stop.js") ++ " --chat")]

/-- The HookConfig object installHooks builds for one command. -/
def hookEntry (command : String) : Json :=
  Json.obj [("matcher", Json.str ""),
            ("hooks", Json.arr [Json.obj [("type", Json.str "command"),
                                          ("command", Json.str command)]])]

/-- The empty SubagentStop entry installHooks ensures. -/
def emptySubagentEntry : Json :=
  Json.obj [("matcher", Json.str ""), ("hooks", Json.arr [])]

/-- The per-hook-type assignments of installHooks/reinstallHooks:
settings.hooks[hookType] = [hookConfig], in Object.entries order. -/
def assignHookCommands (distPath : String) (mode : HookMode)
    (hooks : List (String × Json)) : List (String × Json) :=
  (getHookCommands distPath mode).foldl
    (fun h kv => setField h kv.1 (Json.arr [hookEntry kv.2])) hooks

/-- The mutation installHooks applies to a hooks object: assign each of
the three hook types a one-element registration array, then ensure a
SubagentStop entry when the existing one is falsy or absent. -/
def installIntoHooksObject (distPath : String) (mode : HookMode)
    (h0 : List (String × Json)) : List (String × Json) :=
  let h1 := assignHookCommands distPath mode h0
  if jsTruthy ((lookupField h1 "SubagentStop").getD Json.null) then h1
  else setField h1 "SubagentStop" (Json.arr [emptySubagentEntry])

/-- The settings mutation of cli.ts installHooks (lines 96-128) at the
document level.  A falsy or absent hooks member is replaced by a fresh
object which then takes the registrations; an object takes them in
place.  On a JSON-array hooks member every assignment lands as a named
property of the array, the install completes normally, and JSON.stringify
drops the named properties on save, so the saved document is unchanged.
On a truthy primitive hooks member the first assignment throws a
strict-mode TypeError, the install is aborted (exit 1) and nothing is
saved, modelled as `none`. -/
def installHooksSettings (distPath : String) (mode : HookMode)
    (settings : List (String × Json)) : Option (List (String × Json)) :=
  match lookupField settings "hooks" with
  | some (Json.obj h0) =>
      some (setField settings "hooks" (Json.obj (installIntoHooksObject distPath mode h0)))
  | some (Json.arr _) => some settings
  | none =>
      some (setField settings "hooks" (Json.obj (installIntoHooksObject distPath mode [])))
  | some v =>
      if jsTruthy v then none
      else some (setField settings "hooks" (Json.obj (installIntoHooksObject distPath mode [])))

/-- The settings mutation of cli.ts uninstallHooks (lines 170-183): a falsy
hooks member returns early without saving; deleting the three hook keys
from a truthy non-object hooks member is a no-op; an object loses exactly
the three keys. -/
def uninstallHooksSettings (settings : List (String × Json)) : List (String × Json) :=
  match lookupField settings "hooks" with
  | some (Json.obj h) =>
      setField settings "hooks"
        (Json.obj (deleteField (deleteField (deleteField h "PreToolUse") "Notification") "Stop"))
  | _ => settings

/-- The settings mutation of cli.ts reinstallHooks (lines 340-368): delete
the three keys through the optional chain (a no-op unless hooks is an
object, so the delete phase coincides with the uninstall mutation), then
assign the three fresh registrations; no SubagentStop handling here.  The
hooks-member cases behave as in installHooksSettings: a fresh object for
a falsy member, in-place assignment on an object, an unchanged document
for an array (named properties dropped at serialization), and an aborted
run on a truthy primitive. -/
def reinstallHooksSettings (distPath : String) (mode : HookMode)
    (settings : List (String × Json)) : Option (List (String × Json)) :=
  let afterDelete := uninstallHooksSettings settings
  match lookupField afterDelete "hooks" with
  | some (Json.obj h0) =>
      some (setField afterDelete "hooks" (Json.obj (assignHookCommands distPath mode h0)))
  | some (Json.arr _) => some afterDelete
  | none =>
      some (setField afterDelete "hooks" (Json.obj (assignHookCommands distPath mode [])))
  | some v =>
      if jsTruthy v then none
      else some (setField afterDelete "hooks" (Json.obj (assignHookCommands distPath mode [])))

/-- Checks that a settings document registers exactly one entry for each
of the three hook types. -/
def hasOneRegistrationEach (settings : List (String × Json)) : Bool :=
  match lookupField settings "hooks" with
  | some (Json.obj h) =>
      hookTypes.all (fun t =>
        match lookupField h t with
        | some (Json.arr l) => l.length == 1
        | _ => false)
  | _ => false

/-- The settings documents whose hooks member is absent, falsy, or an
object: exactly those on which the assignments of the installer take
effect in the saved document. -/
def hooksAssignable (settings : List (String × Json)) : Bool :=
  match lookupField settings "hooks" with
  | none => true
  | some (Json.obj _) => true
  | some v => !(jsTruthy v)

/-- Shape test for the ISO-8601 timestamps Date.prototype.toISOString
produces (YYYY-MM-DDTHH:MM:SS.mmmZ). -/
def isIsoDateString (s : String) : Bool :=
  match s.data with
  | [y1, y2, y3, y4, '-', m1, m2, '-', d1, d2, 'T', h1, h2, ':', n1, n2, ':',
     s1, s2, '.', f1, f2, f3, 'Z'] =>
      [y1, y2, y3, y4, m1, m2, d1, d2, h1, h2, n1, n2, s1, s2, f1, f2, f3].all Char.isDigit
  | _ => false

/-- Whether a log record carries a parseable ISO timestamp in its
timestamp field. -/
def recordHasIsoTimestamp (j : Json) : Bool :=
  match getField j "timestamp" with
  | some (Json.str s) => isIsoDateString s
  | _ => false

/-! ## Lemmas about object field manipulation -/

theorem lookup_set_self (l : List (String × Json)) (k : String) (v : Json) :
    lookupField (setField l k v) k = some v := by
  induction l with
  | nil => simp [setField, lookupField]
  | cons kv rest ih =>
    obtain ⟨k', v'⟩ := kv
    by_cases h : k' = k
    · simp [setField, h, lookupField]
    · simp [setField, h, lookupField, ih]

theorem lookup_set_ne (l : List (String × Json)) (k k' : String) (v : Json)
    (h : k' ≠ k) : lookupField (setField l k v) k' = lookupField l k' := by
  have hne : ¬ k = k' := fun e => h e.symm
  induction l with
  | nil => simp [setField, lookupField, hne]
  | cons kv rest ih =>
    obtain ⟨k0, v0⟩ := kv
    by_cases hk : k0 = k
    · subst hk
      simp [setField, lookupField, hne]
    · simp [setField, hk, lookupField, ih]

theorem lookup_delete_self (l : List (String × Json)) (k : String) :
    lookupField (deleteField l k) k = none := by
  induction l with
  | nil => rfl
  | cons kv rest ih =>
    obtain ⟨k0, v0⟩ := kv
    by_cases h : k0 = k
    · simp [deleteField, h, ih]
    · simp [deleteField, h, lookupField, ih]

theorem lookup_delete_ne (l : List (String × Json)) (k k' : String) (h : k' ≠ k) :
    lookupField (deleteField l k) k' = lookupField l k' := by
  have hne : ¬ k = k' := fun e => h e.symm
  induction l with
  | nil => rfl
  | cons kv rest ih =>
    obtain ⟨k0, v0⟩ := kv
    by_cases hk : k0 = k
    · subst hk
      simp [deleteField, lookupField, hne, ih]
    · simp [deleteField, hk, lookupField, ih]

/-- Assignments whose keys avoid `k` leave the binding of `k` alone. -/
theorem lookup_foldl_set_of_not_mem (l : List (String × Json)) (k : String)
    (acc : List (String × Json)) (h : lookupField l k = none) :
    lookupField (l.foldl (fun acc kv => setField acc kv.1 kv.2) acc) k =
      lookupField acc k := by
  induction l generalizing acc with
  | nil => rfl
  | cons kv rest ih =>
    obtain ⟨k0, v0⟩ := kv
    by_cases hk : k0 = k
    · simp [lookupField, hk] at h
    · simp only [lookupField, if_neg hk] at h
      simp only [List.foldl_cons]
      rw [ih _ h, lookup_set_ne _ _ _ _ (fun e => hk e.symm)]

theorem lookup_append (l1 l2 : List (String × Json)) (k : String) :
    lookupField (l1 ++ l2) k = (lookupField l1 k).or (lookupField l2 k) := by
  induction l1 with
  | nil => simp [lookupField]
  | cons kv rest ih =>
    obtain ⟨k0, v0⟩ := kv
    by_cases h : k0 = k
    · simp [lookupField, h]
    · simp [lookupField, h, ih]

/-- In-order assignments realize the last binding of each key, which the
first binding of the reversed list recovers. -/
theorem lookup_foldl_set (l acc : List (String × Json)) (k : String) :
    lookupField (l.foldl (fun a kv => setField a kv.1 kv.2) acc) k
      = (lookupField l.reverse k).or (lookupField acc k) := by
  induction l generalizing acc with
  | nil => simp [lookupField]
  | cons kv rest ih =>
    obtain ⟨k0, v0⟩ := kv
    simp only [List.foldl_cons, List.reverse_cons]
    rw [ih, lookup_append]
    by_cases h : k0 = k
    · subst h
      rw [lookup_set_self]
      cases hr : lookupField rest.reverse k0 <;> simp [lookupField]
    · rw [lookup_set_ne _ _ _ _ (fun e => h e.symm)]
      cases hr : lookupField rest.reverse k <;> simp [lookupField, h]

theorem lookup_eq_none_iff_keys (l : List (String × Json)) (k : String) :
    lookupField l k = none ↔ ∀ kv ∈ l, kv.1 ≠ k := by
  induction l with
  | nil => simp [lookupField]
  | cons kv rest ih =>
    obtain ⟨k0, v0⟩ := kv
    by_cases h : k0 = k
    · simp [lookupField, h]
    · simp [lookupField, h, ih]

theorem lookup_reverse_none (l : List (String × Json)) (k : String)
    (h : lookupField l k = none) : lookupField l.reverse k = none := by
  rw [lookup_eq_none_iff_keys] at h ⊢
  intro kv hkv
  exact h kv (List.mem_reverse.mp hkv)

/-! ## String trimming -/

theorem all_of_dropWhile_all (p : Char → Bool) (l : List Char)
    (h : ∀ x ∈ l.dropWhile p, p x) : ∀ x ∈ l, p x := by
  induction l with
  | nil => simp
  | cons c rest ih =>
    by_cases hc : p c
    · intro x hx
      rcases List.mem_cons.mp hx with rfl | hx'
      · exact hc
      · exact ih (by simpa [List.dropWhile, hc] using h) x hx'
    · intro x hx
      exact h x (by simpa [List.dropWhile, hc] using hx)

theorem jsTrim_eq_empty_iff (s : String) :
    jsTrim s = "" ↔ ∀ c ∈ s.data, jsWhitespace c := by
  unfold jsTrim
  constructor
  · intro h
    have hdata : (((s.data.dropWhile jsWhitespace).reverse.dropWhile jsWhitespace).reverse)
        = ([] : List Char) := congrArg String.data h
    rw [List.reverse_eq_nil_iff, List.dropWhile_eq_nil_iff] at hdata
    refine all_of_dropWhile_all _ _ (fun x hx => ?_)
    exact hdata x (List.mem_reverse.mpr hx)
  · intro h
    have h1 : s.data.dropWhile jsWhitespace = [] :=
      List.dropWhile_eq_nil_iff.mpr h
    simp [h1]

/-! ## C10 : the API key validator -/

/-- Claim C10: validateElevenLabsApiKey accepts a string exactly when its
length (UTF-16 units, as the source reads apiKey.length) exceeds 10 and
it is not entirely whitespace; no prefix or character-set format is
required. -/
theorem validate_api_key_iff (s : String) :
    validateElevenLabsApiKey s = true ↔
      10 < utf16Length s ∧ s.data.all jsWhitespace = false := by
  unfold validateElevenLabsApiKey
  rw [Bool.and_eq_true, decide_eq_true_iff, bne_iff_ne]
  constructor
  · rintro ⟨h1, h2⟩
    refine ⟨h1, ?_⟩
    rw [Bool.eq_false_iff]
    intro hall
    exact h2 (jsTrim_eq_empty_iff s |>.mpr (fun c hc => List.all_eq_true.mp hall c hc))
  · rintro ⟨h1, h2⟩
    refine ⟨h1, fun he => ?_⟩
    have := jsTrim_eq_empty_iff s |>.mp he
    rw [Bool.eq_false_iff] at h2
    exact h2 (List.all_eq_true.mpr this)

/-! ## C9 : remove then load -/

/-- Claim C9: after removeConfig, loadConfig reports no configuration,
while the file, when it existed, remains present with emptied contents. -/
theorem removeConfig_then_loadConfig (home : String) (fs : FS) :
    loadConfig home (removeConfig home fs) = none ∧
      (removeConfig home fs) (configPath home) =
        (if (fs (configPath home)).isSome then some FileContent.empty else none) := by
  unfold removeConfig loadConfig
  by_cases h : (fs (configPath home)).isSome
  · simp [h, FS.write]
  · rw [Option.not_isSome_iff_eq_none] at h
    simp [h]

/-! ## C5 : save then load round trip -/

/-- Claim C5: saving an AudioHooksConfig and loading it back returns an
equal document, for every configuration value and prior file store. -/
theorem saveConfig_loadConfig_roundtrip (home : String) (c : AudioHooksConfig) (fs : FS) :
    loadConfig home (saveConfig home c fs) = some c := by
  obtain ⟨m, key, ⟨n, comp⟩, ia, ver⟩ := c
  cases m <;> cases key <;>
    simp [loadConfig, saveConfig, FS.write, encodeConfig, decodeConfig, modeToStr,
      strToMode, getField, lookupField]

/-! ## C1 : handler behavior on malformed standard input -/

/-- Claim C1 counterexample: the on-stop handler fed unparseable standard
input exits with the generic failure status 1, not 2 as the claim states
for all three handlers. -/
theorem stop_malformed_input_counterexample :
    stopOnEnd "/home/u" none "2025-01-01T00:00:00.000Z" 0 emptyFS = (1, emptyFS) ∧
      (1 : Nat) ≠ 2 := by
  exact ⟨rfl, by decide⟩

/-- Claim C1 as amended: on standard input that does not parse as JSON,
the on-tool-start and on-notification handlers exit with status 2, the
on-stop handler exits with status 1, and none of them writes to any file
(so no event log gains a record). -/
theorem malformed_input_handler_behavior (home ts : String) (now : Int) (fs : FS) :
    workingOnEnd home none ts fs = (2, fs, none) ∧
      notificationOnEnd home none ts fs = (2, fs) ∧
      stopOnEnd home none ts now fs = (1, fs) := by
  exact ⟨rfl, rfl, rfl⟩

/-! ## C2 : sound resolution order -/

/-- Claim C2 evaluated at the failing input: with a sound file present in
both the user override directory and the bundled package directory, the
getSoundPath of src/utils.ts returns the package path and not the user
override path, while the part_003 revision returns the user path.  The
repository README states custom files in the user directory take
precedence. -/
theorem getSoundPath_package_shadows_user :
    getSoundPath (fun _ => true) "/opt/pkg/dist" "/home/u" "on-agent-complete.mp3"
        = "/opt/pkg/dist/../sounds/on-agent-complete.mp3" ∧
      getSoundPath (fun _ => true) "/opt/pkg/dist" "/home/u" "on-agent-complete.mp3"
        ≠ userSoundPath "/home/u" "on-agent-complete.mp3" ∧
      getSoundPathUserFirst (fun _ => true) "/opt/pkg/dist" "/home/u" "on-agent-complete.mp3"
        = "/home/u/.claude/on-agent-complete.mp3" := by
  refine ⟨rfl, ?_, rfl⟩
  decide

/-! ## C6 : the switch-mode flow and the API key -/

/-- Claim C6: in a confirmed switch-mode flow over an existing
configuration whose stored key, when present, is nonempty, the API-key
prompt runs exactly when the new mode is tts (the stored mode is
standard) and no key is stored; switching from tts to standard never
prompts; a stored key is preserved unchanged in the returned
configuration. -/
theorem switchMode_prompt_iff (cfg : AudioHooksConfig) (pk : String)
    (hk : cfg.elevenLabsApiKey ≠ some "") :
    ((switchModeFlow (some cfg) true pk).2 = true ↔
        cfg.mode = HookMode.standard ∧ cfg.elevenLabsApiKey = none) ∧
      (cfg.mode = HookMode.tts → (switchModeFlow (some cfg) true pk).2 = false) ∧
      (∀ k, cfg.elevenLabsApiKey = some k →
        ∃ cfg', (switchModeFlow (some cfg) true pk).1 = some cfg' ∧
          cfg'.elevenLabsApiKey = some k) := by
  obtain ⟨m, key, sel, ia, ver⟩ := cfg
  cases key with
  | none => cases m <;> simp [switchModeFlow, jsTruthyOptStr]
  | some k =>
    have hkne : k ≠ "" := fun h => hk (by simp [h])
    cases m <;> simp [switchModeFlow, jsTruthyOptStr, hkne]

/-- Witness for claim C6 at a concrete configuration: standard mode with
no stored key, so the prompt must run. -/
theorem switchMode_prompt_iff_witness :
    (switchModeFlow
        (some { mode := HookMode.standard, elevenLabsApiKey := none,
                soundSelection := { notification := "attention", completion := "complete" },
                installedAt := "2025-01-01T00:00:00.000Z", version := "1.0.2" })
        true "a-valid-long-key").2 = true := by
  have h := switchMode_prompt_iff
    { mode := HookMode.standard, elevenLabsApiKey := none,
      soundSelection := { notification := "attention", completion := "complete" },
      installedAt := "2025-01-01T00:00:00.000Z", version := "1.0.2" }
    "a-valid-long-key" (by simp)
  exact h.1.mpr ⟨rfl, rfl⟩

/-! ## C7 : the event log as an append-only array -/

/-- When the payload brings no timestamp field of its own, the record
carries the generated timestamp. -/
theorem mkLogRecord_timestamp (ts : String) (data : Json)
    (h : lookupField (spreadFields data) "timestamp" = none) :
    getField (mkLogRecord ts data) "timestamp" = some (Json.str ts) := by
  unfold mkLogRecord
  simp only [getField]
  rw [lookup_foldl_set_of_not_mem _ _ _ h]
  rfl

/-- When the payload does bring a timestamp field, the spread overwrites
the generated timestamp with the payload value (the last binding of the
field, as in-order assignment lets the last one win). -/
theorem mkLogRecord_timestamp_override (ts : String) (data : Json) (v : Json)
    (h : lookupField (spreadFields data).reverse "timestamp" = some v) :
    getField (mkLogRecord ts data) "timestamp" = some v := by
  unfold mkLogRecord
  simp only [getField]
  rw [lookup_foldl_set, h]
  rfl

/-- Logging onto an existing array file appends the records in call order. -/
theorem logEventN_from_array (home et : String) (events : List (Json × String))
    (fs : FS) (xs : List Json)
    (hfile : fs (logFilePath home et) = some (FileContent.json (Json.arr xs))) :
    ∃ fs', logEventN home et events fs = some fs' ∧
      fs' (logFilePath home et) =
        some (FileContent.json
          (Json.arr (xs ++ events.map (fun dt => mkLogRecord dt.2 dt.1)))) := by
  induction events generalizing fs xs with
  | nil => exact ⟨fs, rfl, by simpa using hfile⟩
  | cons dt rest ih =>
    have hstep : logEvent home et dt.1 dt.2 fs =
        some (fs.write (logFilePath home et)
          (FileContent.json (Json.arr (xs ++ [mkLogRecord dt.2 dt.1])))) := by
      simp [logEvent, hfile]
    have hfile' : (fs.write (logFilePath home et)
          (FileContent.json (Json.arr (xs ++ [mkLogRecord dt.2 dt.1]))))
        (logFilePath home et)
        = some (FileContent.json (Json.arr (xs ++ [mkLogRecord dt.2 dt.1]))) := by
      simp [FS.write]
    obtain ⟨fs', h1, h2⟩ := ih _ _ hfile'
    refine ⟨fs', ?_, ?_⟩
    · simp [logEventN, hstep, h1]
    · simpa [List.append_assoc] using h2

/-- Claim C7 counterexample: a single logEvent call whose payload carries
its own timestamp field.  The object spread overwrites the generated ISO
timestamp, so the sole record of the resulting length-one array has no
parseable ISO timestamp, even though the clock value was one. -/
theorem logEvent_timestamp_override_counterexample :
    (logEventN "/h" "stop"
        [(Json.obj [("timestamp", Json.num 42)], "2025-01-01T00:00:00.000Z")]
        emptyFS).bind (fun fs => fs (logFilePath "/h" "stop"))
      = some (FileContent.json (Json.arr [Json.obj [("timestamp", Json.num 42)]])) ∧
      recordHasIsoTimestamp (Json.obj [("timestamp", Json.num 42)]) = false ∧
      isIsoDateString "2025-01-01T00:00:00.000Z" = true := by
  exact ⟨rfl, rfl, rfl⟩

/-- Claim C7 as amended: a nonempty sequence of logEvent calls starting
from an absent log file produces, for every payload sequence, an array of
exactly one record per call in call order.  A record whose payload brings
no timestamp field carries the generated clock value (so a parseable ISO
timestamp whenever the clock produced one); a record whose payload does
bring a timestamp field carries the payload value instead, the spread
overwriting the generated timestamp. -/
theorem logEventN_appends_in_order (home et : String)
    (events : List (Json × String)) (fs : FS)
    (habs : fs (logFilePath home et) = none) (hne : events ≠ []) :
    ∃ fs', logEventN home et events fs = some fs' ∧
      fs' (logFilePath home et) =
        some (FileContent.json
          (Json.arr (events.map fun dt => mkLogRecord dt.2 dt.1))) ∧
      (events.map fun dt => mkLogRecord dt.2 dt.1).length = events.length ∧
      (∀ dt ∈ events,
        (lookupField (spreadFields dt.1) "timestamp" = none →
          getField (mkLogRecord dt.2 dt.1) "timestamp" = some (Json.str dt.2) ∧
            (isIsoDateString dt.2 = true →
              recordHasIsoTimestamp (mkLogRecord dt.2 dt.1) = true)) ∧
        (∀ v, lookupField (spreadFields dt.1).reverse "timestamp" = some v →
          getField (mkLogRecord dt.2 dt.1) "timestamp" = some v)) := by
  cases events with
  | nil => exact absurd rfl hne
  | cons dt rest =>
    have hstep : logEvent home et dt.1 dt.2 fs =
        some (fs.write (logFilePath home et)
          (FileContent.json (Json.arr [mkLogRecord dt.2 dt.1]))) := by
      simp [logEvent, habs]
    obtain ⟨fs', h1, h2⟩ := logEventN_from_array home et rest
      (fs.write (logFilePath home et)
        (FileContent.json (Json.arr [mkLogRecord dt.2 dt.1])))
      [mkLogRecord dt.2 dt.1] (by simp [FS.write])
    refine ⟨fs', ?_, ?_, by simp, ?_⟩
    · simp [logEventN, hstep, h1]
    · simpa using h2
    · intro dt' _
      refine ⟨fun hnone => ⟨mkLogRecord_timestamp _ _ hnone, fun hiso => ?_⟩,
        fun v hv => mkLogRecord_timestamp_override _ _ _ hv⟩
      unfold recordHasIsoTimestamp
      rw [mkLogRecord_timestamp _ _ hnone]
      exact hiso

/-- Witness for the amended claim C7 at one concrete call. -/
theorem logEventN_appends_in_order_witness :
    ∃ fs', logEventN "/h" "notifications"
        [(Json.obj [("message", Json.str "hi")], "2025-01-01T00:00:00.000Z")]
        emptyFS = some fs' ∧
      fs' (logFilePath "/h" "notifications") =
        some (FileContent.json
          (Json.arr ([(Json.obj [("message", Json.str "hi")],
              "2025-01-01T00:00:00.000Z")].map fun dt => mkLogRecord dt.2 dt.1))) ∧
      ([(Json.obj [("message", Json.str "hi")],
          "2025-01-01T00:00:00.000Z")].map fun dt => mkLogRecord dt.2 dt.1).length
        = [(Json.obj [("message", Json.str "hi")],
            "2025-01-01T00:00:00.000Z")].length ∧
      (∀ dt ∈ [(Json.obj [("message", Json.str "hi")],
          "2025-01-01T00:00:00.000Z")],
        (lookupField (spreadFields dt.1) "timestamp" = none →
          getField (mkLogRecord dt.2 dt.1) "timestamp" = some (Json.str dt.2) ∧
            (isIsoDateString dt.2 = true →
              recordHasIsoTimestamp (mkLogRecord dt.2 dt.1) = true)) ∧
        (∀ v, lookupField (spreadFields dt.1).reverse "timestamp" = some v →
          getField (mkLogRecord dt.2 dt.1) "timestamp" = some v)) :=
  logEventN_appends_in_order "/h" "notifications"
    [(Json.obj [("message", Json.str "hi")], "2025-01-01T00:00:00.000Z")]
    emptyFS rfl (by simp)

/-! ## C8 : the on-tool-start handler on a task payload -/

/-- Claim C8: fed the object with task "Edit" (and an absent working log),
the on-tool-start handler exits 0, appends the record carrying the
generated timestamp and the task field, and dispatches a working status
labelled Edit followed by three dots; the task field wins over the tool,
action and default fallbacks. -/
theorem working_handler_edit_task (home ts : String) (fs : FS)
    (habs : fs (logFilePath home "working") = none) :
    workingOnEnd home (some (Json.obj [("task", Json.str "Edit")])) ts fs =
      (0, FS.write fs (logFilePath home "working")
            (FileContent.json (Json.arr
              [Json.obj [("timestamp", Json.str ts), ("task", Json.str "Edit")]])),
        some ("working", "Edit...")) ∧
      getField (Json.obj [("timestamp", Json.str ts), ("task", Json.str "Edit")])
          "task" = some (Json.str "Edit") ∧
      getField (Json.obj [("timestamp", Json.str ts), ("task", Json.str "Edit")])
          "timestamp" = some (Json.str ts) := by
  refine ⟨?_, rfl, rfl⟩
  simp [workingOnEnd, logEvent, habs, mkLogRecord, spreadFields, setField,
    taskOf, truthyField, getField, lookupField, jsTruthy, jsToString]

/-- Witness for claim C8 at a concrete home, timestamp and empty store. -/
theorem working_handler_edit_task_witness :
    workingOnEnd "/h" (some (Json.obj [("task", Json.str "Edit")]))
        "2025-01-01T00:00:00.000Z" emptyFS =
      (0, FS.write emptyFS (logFilePath "/h" "working")
            (FileContent.json (Json.arr
              [Json.obj [("timestamp", Json.str "2025-01-01T00:00:00.000Z"),
                         ("task", Json.str "Edit")]])),
        some ("working", "Edit...")) ∧
      getField (Json.obj [("timestamp", Json.str "2025-01-01T00:00:00.000Z"),
          ("task", Json.str "Edit")]) "task" = some (Json.str "Edit") ∧
      getField (Json.obj [("timestamp", Json.str "2025-01-01T00:00:00.000Z"),
          ("task", Json.str "Edit")]) "timestamp" =
        some (Json.str "2025-01-01T00:00:00.000Z") :=
  working_handler_edit_task "/h" "2025-01-01T00:00:00.000Z" emptyFS rfl

/-! ## C3 / C4 : the settings document under install, uninstall, reinstall -/

/-- After the three assignments, each hook type is bound to a one-element
registration array, whatever was bound before. -/
theorem lookup_assign_all (d : String) (m : HookMode) (h : List (String × Json)) :
    (∃ e, lookupField (assignHookCommands d m h) "PreToolUse" = some (Json.arr [e])) ∧
      (∃ e, lookupField (assignHookCommands d m h) "Notification" = some (Json.arr [e])) ∧
      (∃ e, lookupField (assignHookCommands d m h) "Stop" = some (Json.arr [e])) := by
  cases m with
  | standard =>
    simp only [assignHookCommands, getHookCommands, List.foldl]
    exact ⟨⟨_, by rw [lookup_set_ne _ _ _ _ (by decide),
              lookup_set_ne _ _ _ _ (by decide), lookup_set_self]⟩,
      ⟨_, by rw [lookup_set_ne _ _ _ _ (by decide), lookup_set_self]⟩,
      ⟨_, by rw [lookup_set_self]⟩⟩
  | tts =>
    simp only [assignHookCommands, getHookCommands, List.foldl]
    exact ⟨⟨_, by rw [lookup_set_ne _ _ _ _ (by decide),
              lookup_set_ne _ _ _ _ (by decide), lookup_set_self]⟩,
      ⟨_, by rw [lookup_set_ne _ _ _ _ (by decide), lookup_set_self]⟩,
      ⟨_, by rw [lookup_set_self]⟩⟩

/-- Every install that completes returns either the unchanged document
(array hooks member: the registrations are dropped at serialization) or
the document with its hooks member rewritten to the mutated object. -/
theorem install_result_cases {d : String} {m : HookMode}
    {s s1 : List (String × Json)} (hinst : installHooksSettings d m s = some s1) :
    s1 = s ∨ ∃ h0, s1 = setField s "hooks" (Json.obj (installIntoHooksObject d m h0)) := by
  unfold installHooksSettings at hinst
  cases hl : lookupField s "hooks" with
  | none =>
    simp only [hl, Option.some.injEq] at hinst
    exact Or.inr ⟨[], hinst.symm⟩
  | some v =>
    cases v with
    | obj h0 =>
      simp only [hl, Option.some.injEq] at hinst
      exact Or.inr ⟨h0, hinst.symm⟩
    | arr xs =>
      simp only [hl, Option.some.injEq] at hinst
      exact Or.inl hinst.symm
    | null =>
      simp [hl, jsTruthy] at hinst
      exact Or.inr ⟨[], hinst.symm⟩
    | bool b =>
      cases b
      · simp [hl, jsTruthy] at hinst
        exact Or.inr ⟨[], hinst.symm⟩
      · simp [hl, jsTruthy] at hinst
    | num n =>
      by_cases hn : n = 0
      · subst hn
        simp [hl, jsTruthy] at hinst
        exact Or.inr ⟨[], hinst.symm⟩
      · simp [hl, jsTruthy, hn] at hinst
    | str t =>
      by_cases ht : t = ""
      · subst ht
        simp [hl, jsTruthy] at hinst
        exact Or.inr ⟨[], hinst.symm⟩
      · simp [hl, jsTruthy, ht] at hinst

/-- On an assignable document the install completes and rewrites the
hooks member to the mutated object. -/
theorem install_assignable_shape (d : String) (m : HookMode)
    (s : List (String × Json)) (h : hooksAssignable s = true) :
    ∃ h0, installHooksSettings d m s
        = some (setField s "hooks" (Json.obj (installIntoHooksObject d m h0))) := by
  unfold hooksAssignable at h
  unfold installHooksSettings
  cases hl : lookupField s "hooks" with
  | none => exact ⟨[], rfl⟩
  | some v =>
    simp only [hl] at h
    cases v with
    | obj h0 => exact ⟨h0, rfl⟩
    | arr xs => simp [jsTruthy] at h
    | null => exact ⟨[], by simp [jsTruthy]⟩
    | bool b =>
      simp [hl] at h
      exact ⟨[], by simp [h]⟩
    | num n =>
      simp [hl] at h
      exact ⟨[], by simp [h]⟩
    | str t =>
      simp [hl] at h
      exact ⟨[], by simp [h]⟩

/-- The mutated hooks object binds each hook type to a one-element
registration array, whatever the document looked like before. -/
theorem install_into_singletons (d : String) (m : HookMode)
    (h0 : List (String × Json)) (s : List (String × Json)) :
    hasOneRegistrationEach
      (setField s "hooks" (Json.obj (installIntoHooksObject d m h0))) = true := by
  obtain ⟨⟨e1, he1⟩, ⟨e2, he2⟩, ⟨e3, he3⟩⟩ := lookup_assign_all d m h0
  have hsub : ∀ t, t ≠ "SubagentStop" →
      lookupField (installIntoHooksObject d m h0) t
        = lookupField (assignHookCommands d m h0) t := by
    intro t ht
    simp only [installIntoHooksObject]
    split
    · rfl
    · exact lookup_set_ne _ _ _ _ ht
  simp only [hasOneRegistrationEach, lookup_set_self, hookTypes, List.all_cons,
    List.all_nil, Bool.and_eq_true, Bool.and_true]
  refine ⟨?_, ?_, ?_⟩
  · rw [hsub _ (by decide), he1]; rfl
  · rw [hsub _ (by decide), he2]; rfl
  · rw [hsub _ (by decide), he3]; rfl

/-- Claim C3 counterexample: a settings document whose hooks member is
the empty JSON array.  Both installs complete (the program prints
success and exits 0), but the assigned registrations are named
properties of the array that JSON.stringify drops, so the saved document
is unchanged and holds zero registrations per hook type, not one. -/
theorem install_twice_array_hooks_counterexample :
    (installHooksSettings "/d" HookMode.standard [("hooks", Json.arr [])]).bind
        (installHooksSettings "/d" HookMode.standard)
      = some [("hooks", Json.arr [])] ∧
      hasOneRegistrationEach [("hooks", Json.arr [])] = false := by
  exact ⟨rfl, rfl⟩

/-- Claim C3 as amended: on every initial settings document whose hooks
member is absent, falsy or an object — the documents on which the
assignments of the installer take effect — two consecutive installs in
any modes complete and leave exactly one registration entry for each of
PreToolUse, Notification and Stop.  (A JSON-array hooks member survives
both installs unchanged with zero registrations, and a truthy primitive
hooks member aborts the install.) -/
theorem install_twice_one_registration_each (d1 d2 : String) (m1 m2 : HookMode)
    (s : List (String × Json)) (h : hooksAssignable s = true) :
    ∃ s1 s2, installHooksSettings d1 m1 s = some s1 ∧
      installHooksSettings d2 m2 s1 = some s2 ∧
      hasOneRegistrationEach s2 = true := by
  obtain ⟨h0, hs1⟩ := install_assignable_shape d1 m1 s h
  have hassign1 : hooksAssignable
      (setField s "hooks" (Json.obj (installIntoHooksObject d1 m1 h0))) = true := by
    unfold hooksAssignable
    rw [lookup_set_self]
  obtain ⟨h0', hs2⟩ := install_assignable_shape d2 m2 _ hassign1
  exact ⟨_, _, hs1, hs2, install_into_singletons d2 m2 h0' _⟩

/-- Witness for the amended claim C3: installing twice over a document
with one unrelated key, first in standard then in tts mode. -/
theorem install_twice_one_registration_each_witness :
    ∃ s1 s2, installHooksSettings "/d" HookMode.standard
        [("theme", Json.str "dark")] = some s1 ∧
      installHooksSettings "/e" HookMode.tts s1 = some s2 ∧
      hasOneRegistrationEach s2 = true :=
  install_twice_one_registration_each "/d" "/e" HookMode.standard HookMode.tts
    [("theme", Json.str "dark")] rfl

/-- The uninstall mutation never touches a key other than hooks. -/
theorem uninstall_lookup_ne (s : List (String × Json)) (k : String)
    (hk : k ≠ "hooks") :
    lookupField (uninstallHooksSettings s) k = lookupField s k := by
  unfold uninstallHooksSettings
  cases hl : lookupField s "hooks" with
  | none => rfl
  | some v =>
    cases v with
    | obj hf => exact lookup_set_ne _ _ _ _ hk
    | null => rfl
    | bool b => rfl
    | num n => rfl
    | str t => rfl
    | arr xs => rfl

/-- Deleting the three hook keys removes each of them. -/
theorem lookup_del3_mem (hf : List (String × Json)) :
    ∀ t ∈ hookTypes,
      lookupField
        (deleteField (deleteField (deleteField hf "PreToolUse") "Notification") "Stop") t
      = none := by
  intro t ht
  simp only [hookTypes, List.mem_cons, List.mem_singleton, List.not_mem_nil,
    or_false] at ht
  rcases ht with rfl | rfl | rfl
  · rw [lookup_delete_ne _ _ _ (by decide), lookup_delete_ne _ _ _ (by decide),
      lookup_delete_self]
  · rw [lookup_delete_ne _ _ _ (by decide), lookup_delete_self]
  · rw [lookup_delete_self]

/-- Deleting the three hook keys leaves every other hook entry alone. -/
theorem lookup_del3_not_mem (hf : List (String × Json)) (t : String)
    (ht : t ∉ hookTypes) :
    lookupField
        (deleteField (deleteField (deleteField hf "PreToolUse") "Notification") "Stop") t
      = lookupField hf t := by
  simp only [hookTypes, List.mem_cons, List.mem_singleton, List.not_mem_nil,
    or_false, not_or] at ht
  rw [lookup_delete_ne _ _ _ ht.2.2, lookup_delete_ne _ _ _ ht.2.1,
    lookup_delete_ne _ _ _ ht.1]

/-- Every install that completes changes no top-level binding other than
hooks, the array case included. -/
theorem install_lookup_ne {d : String} {m : HookMode}
    {s s1 : List (String × Json)} (hinst : installHooksSettings d m s = some s1)
    (k : String) (hk : k ≠ "hooks") : lookupField s1 k = lookupField s k := by
  rcases install_result_cases hinst with rfl | ⟨h0, rfl⟩
  · rfl
  · exact lookup_set_ne _ _ _ _ hk

/-- Every reinstall that completes returns the uninstalled document
either unchanged (array hooks member) or with only its hooks member
rewritten. -/
theorem reinstall_result_cases {d : String} {m : HookMode}
    {s sr : List (String × Json)} (hre : reinstallHooksSettings d m s = some sr) :
    sr = uninstallHooksSettings s ∨
      ∃ h0, sr = setField (uninstallHooksSettings s) "hooks"
        (Json.obj (assignHookCommands d m h0)) := by
  simp only [reinstallHooksSettings] at hre
  cases hl : lookupField (uninstallHooksSettings s) "hooks" with
  | none =>
    simp only [hl, Option.some.injEq] at hre
    exact Or.inr ⟨[], hre.symm⟩
  | some v =>
    cases v with
    | obj h0 =>
      simp only [hl, Option.some.injEq] at hre
      exact Or.inr ⟨h0, hre.symm⟩
    | arr xs =>
      simp only [hl, Option.some.injEq] at hre
      exact Or.inl hre.symm
    | null =>
      simp [hl, jsTruthy] at hre
      exact Or.inr ⟨[], hre.symm⟩
    | bool b =>
      cases b
      · simp [hl, jsTruthy] at hre
        exact Or.inr ⟨[], hre.symm⟩
      · simp [hl, jsTruthy] at hre
    | num n =>
      by_cases hn : n = 0
      · subst hn
        simp [hl, jsTruthy] at hre
        exact Or.inr ⟨[], hre.symm⟩
      · simp [hl, jsTruthy, hn] at hre
    | str t =>
      by_cases ht : t = ""
      · subst ht
        simp [hl, jsTruthy] at hre
        exact Or.inr ⟨[], hre.symm⟩
      · simp [hl, jsTruthy, ht] at hre

/-- Claim C4: uninstall after install removes exactly the three hook
registrations the install placed (whenever the install placed any, that
is whenever the hooks member of the installed document is an object) and
leaves every other top-level key and every other hooks entry unchanged;
more generally no completing install, uninstall or reinstall changes the
binding of any top-level key other than hooks — the array-hooks cycles
the program completes with an unchanged document included. -/
theorem uninstall_frame (d d2 : String) (m m2 : HookMode)
    (s s1 sr : List (String × Json))
    (hinst : installHooksSettings d m s = some s1)
    (hre : reinstallHooksSettings d2 m2 s = some sr) :
    (∀ k, k ≠ "hooks" → lookupField s1 k = lookupField s k) ∧
      (∀ k, k ≠ "hooks" → lookupField (uninstallHooksSettings s1) k = lookupField s k) ∧
      (∀ h1, lookupField s1 "hooks" = some (Json.obj h1) →
        ∃ h2, lookupField (uninstallHooksSettings s1) "hooks" = some (Json.obj h2) ∧
          (∀ t ∈ hookTypes, lookupField h2 t = none) ∧
          (∀ t, t ∉ hookTypes → lookupField h2 t = lookupField h1 t)) ∧
      (∀ k, k ≠ "hooks" → lookupField sr k = lookupField s k) ∧
      (∀ k, k ≠ "hooks" → lookupField (uninstallHooksSettings s) k = lookupField s k) := by
  refine ⟨fun k hk => install_lookup_ne hinst k hk, ?_, ?_, ?_,
    fun k hk => uninstall_lookup_ne s k hk⟩
  · intro k hk
    rw [uninstall_lookup_ne s1 k hk, install_lookup_ne hinst k hk]
  · intro h1 hh1
    have huninst : uninstallHooksSettings s1
        = setField s1 "hooks"
            (Json.obj (deleteField (deleteField (deleteField h1 "PreToolUse")
              "Notification") "Stop")) := by
      unfold uninstallHooksSettings
      rw [hh1]
    refine ⟨_, ?_, lookup_del3_mem h1, fun t ht => lookup_del3_not_mem h1 t ht⟩
    rw [huninst, lookup_set_self]
  · intro k hk
    rcases reinstall_result_cases hre with rfl | ⟨h0, rfl⟩
    · exact uninstall_lookup_ne s k hk
    · rw [lookup_set_ne _ _ _ _ hk, uninstall_lookup_ne s k hk]

/-- Witness for claim C4: over a document with one unrelated key, the key
survives install followed by uninstall. -/
theorem uninstall_frame_witness :
    lookupField (uninstallHooksSettings
        ((installHooksSettings "/d" HookMode.standard
          [("theme", Json.str "dark")]).getD []))
      "theme" = some (Json.str "dark") := by
  have h := uninstall_frame "/d" "/d" HookMode.standard HookMode.standard
    [("theme", Json.str "dark")]
    ((installHooksSettings "/d" HookMode.standard [("theme", Json.str "dark")]).getD [])
    ((reinstallHooksSettings "/d" HookMode.standard [("theme", Json.str "dark")]).getD [])
    rfl rfl
  rw [h.2.1 "theme" (by decide)]
  rfl

end ClaudeAudioHooks
